import Mathlib

/-!
Shallow embedding of the connection-layer core of the `cyper` HTTP client:

* `src/cyper/src/altsvc.rs` — the Alt-Svc advertisement parser (`parse`) and
  the per-host upgrade cache (`KnownHosts` with `try_insert`, `find`, `clear`);
* `src/cyper/src/http3.rs` — the HTTP/3 connection pool (`Pool.connecting`,
  `Pool.try_pool`, `Pool.new_connection`) and the composite
  `Client.get_pooled_client`;
* `src/cyper-core/src/stream.rs` — the completion-to-readiness adapter
  `HyperStream` (`poll_read` / `poll_write` / `poll_flush` / `poll_shutdown`).

Modelling conventions:

* Rust `Result<T, E>` becomes `RustResult ε α` (a local copy of `Except` with
  a derived decidable equality).
* `Instant` is modelled at second granularity as a `Nat`; the code only ever
  compares `(now - earlier).as_secs()` against whole-second ages, and
  `Instant` subtraction saturates at zero just as `Nat` subtraction does.
* `HashMap` / `HashSet` state guarded by the pool's single mutex becomes an
  explicit state value threaded through each operation; maps are extensional
  functions `key → Option value`, sets are `key → Bool`.
* Rust string scanning is modelled on `List Char` with structural recursion:
  every separator the source splits on is a single character, so
  `str::split(sep)` is `splitOnChar sep` (both yield one empty fragment on
  the empty string and keep empty fragments), `str::trim` is `trimChars`
  (Unicode whitespace restricted to its ASCII part, the only part the inputs
  at issue can contain), and `str::trim_matches('"')` is `trimQuotes`.
-/

namespace Cyper

/-- Rust `Result<α, ε>`: `ok` is `Ok`, `err` is `Err`. -/
inductive RustResult (ε α : Type) where
  | ok (a : α)
  | err (e : ε)
  deriving DecidableEq, Repr

/-! ## `src/cyper/src/altsvc.rs` -/

/-- `enum ParseError` of altsvc.rs (payloads keep the offending fragment). -/
inductive ParseError where
  | Parameter (s : String)
  | MaValue (s : String)
  | PersistValue (s : String)
  | AltAuthorityValue (s : String)
  | PortNumber (s : String)
  deriving DecidableEq, Repr

/-- `struct AltAuthority { host: String, port: u16 }`; `port` is a `Nat`
bounded by the `u16` range at parse time. `Default` gives `"", 0`. -/
structure AltAuthority where
  host : String := ""
  port : Nat := 0
  deriving DecidableEq, Repr

/-- `struct Service { id, authority, max_age: Option<u64>, persist }` with its
`Default` values. -/
structure Service where
  id : String := ""
  authority : AltAuthority := {}
  max_age : Option Nat := none
  persist : Bool := false
  deriving DecidableEq, Repr

/-- `enum AltService { Clear, Services(Vec<Service>) }`. -/
inductive AltService where
  | Clear
  | Services (l : List Service)
  deriving DecidableEq, Repr

/-- Rust `str::split(sep)` for a one-character separator: keeps empty
fragments and yields one empty fragment for the empty input. -/
def splitOnChar (sep : Char) : List Char → List (List Char)
  | [] => [[]]
  | c :: rest =>
    if c = sep then [] :: splitOnChar sep rest
    else
      match splitOnChar sep rest with
      | h :: t => (c :: h) :: t
      | [] => [[c]]

/-- Rust `char::is_whitespace` restricted to ASCII (the only characters the
header values at issue contain). -/
def isRustWhitespace (c : Char) : Bool :=
  c = ' ' || c = '\t' || c = '\n' || c = '\r' || c.toNat = 11 || c.toNat = 12

/-- Rust `str::trim`. -/
def trimChars (l : List Char) : List Char :=
  ((l.dropWhile isRustWhitespace).reverse.dropWhile isRustWhitespace).reverse

/-- Rust `str::trim_matches('"')`: strip every leading and trailing `"`. -/
def trimQuotes (l : List Char) : List Char :=
  ((l.dropWhile (· = '"')).reverse.dropWhile (· = '"')).reverse

/-- Decimal digits to a number; `none` when empty or a non-digit appears
(the core of Rust's integer `FromStr`). -/
def parseDigits : List Char → Option Nat
  | [] => none
  | l => l.foldlM (fun acc c => if c.isDigit then some (acc * 10 + (c.toNat - 48)) else none) 0

/-- Rust `str::parse::<uN>()`: an optional `+` sign, then decimal digits,
rejecting overflow past `2 ^ bits`. Used with 64 for `ma` and 16 for ports. -/
def parseUnsigned (bits : Nat) (s : List Char) : Option Nat :=
  let cs := match s with
    | '+' :: rest => rest
    | cs => cs
  match parseDigits cs with
  | some n => if n < 2 ^ bits then some n else none
  | none => none

/-- Rust `str::parse::<i32>()`: optional sign, decimal digits, `i32` range. -/
def parseI32 (s : List Char) : Option Int :=
  match s with
  | '-' :: rest =>
    (parseDigits rest).bind fun n => if n ≤ 2 ^ 31 then some (-(n : Int)) else none
  | '+' :: rest =>
    (parseDigits rest).bind fun n => if n < 2 ^ 31 then some ((n : Int)) else none
  | cs =>
    (parseDigits cs).bind fun n => if n < 2 ^ 31 then some ((n : Int)) else none

/-- One iteration of the inner `for kv in params` loop of `parse`
(altsvc.rs lines 59-99): trims the parameter, skips it when empty, splits on
`=`, and dispatches on the key (`ma`, `persist`, or a protocol id whose value
is a quoted `host:port`). -/
def parseParam (svc : Service) (kv : List Char) : RustResult ParseError Service :=
  let rawKv := trimChars kv
  if rawKv.isEmpty then .ok svc
  else
    let kvSplit := splitOnChar '=' rawKv
    if kvSplit.length ≠ 2 then .err (.Parameter (String.mk rawKv))
    else
      let k := kvSplit.getD 0 []
      let v := kvSplit.getD 1 []
      if k = ("ma").toList then
        match parseUnsigned 64 v with
        | some ma => .ok { svc with max_age := some ma }
        | none => .err (.MaValue (String.mk v))
      else if k = ("persist").toList then
        match parseI32 v with
        | some p => if p ≠ 1 then .ok svc else .ok { svc with persist := true }
        | none => .err (.PersistValue (String.mk v))
      else
        let rawValue := trimQuotes v
        let altAuthSplit := splitOnChar ':' rawValue
        if altAuthSplit.length ≠ 2 then .err (.AltAuthorityValue (String.mk rawValue))
        else
          let host := altAuthSplit.getD 0 []
          let port := altAuthSplit.getD 1 []
          match parseUnsigned 16 port with
          | some p =>
            .ok { svc with id := String.mk k,
                           authority := { host := String.mk host, port := p } }
          | none => .err (.PortNumber (String.mk port))

/-- The inner parameter loop folded over one service string's `;`-fragments. -/
def parseParams : Service → List (List Char) → RustResult ParseError Service
  | svc, [] => .ok svc
  | svc, kv :: rest =>
    match parseParam svc kv with
    | .ok svc2 => parseParams svc2 rest
    | .err e => .err e

/-- The outer `for svc_string in services` loop of `parse` (altsvc.rs lines
52-101): trims each `,`-fragment, skips empty ones, parses the rest from a
`Service::default()` and collects the results in order. -/
def parseFragments : List (List Char) → RustResult ParseError (List Service)
  | [] => .ok []
  | frag :: rest =>
    if (trimChars frag).isEmpty then parseFragments rest
    else
      match parseParams {} (splitOnChar ';' (trimChars frag)) with
      | .err e => .err e
      | .ok svc =>
        match parseFragments rest with
        | .err e => .err e
        | .ok svcs => .ok (svc :: svcs)

/-- `pub fn parse(s: &str) -> Result<AltService, ParseError>` (altsvc.rs
lines 45-103): the exact literal `clear` short-circuits, anything else is
parsed as a comma-separated service list. -/
def parse (s : String) : RustResult ParseError AltService :=
  if s = "clear" then .ok .Clear
  else
    match parseFragments (splitOnChar ',' s.toList) with
    | .ok svcs => .ok (.Services svcs)
    | .err e => .err e

/-- `struct AltHostEntry { insert_time: Instant, max_age: u64 }`, the instant
at second granularity. -/
structure AltHostEntry where
  insert_time : Nat
  max_age : Nat
  deriving DecidableEq, Repr

/-- The map inside `KnownHosts` (`HashMap<String, AltHostEntry>` behind the
mutex), modelled extensionally. -/
def KnownHosts := String → Option AltHostEntry

/-- `HashMap::insert`. -/
def KnownHosts.insert (m : KnownHosts) (host : String) (e : AltHostEntry) : KnownHosts :=
  fun h => if h = host then some e else m h

/-- `HashMap::remove`. -/
def KnownHosts.remove (m : KnownHosts) (host : String) : KnownHosts :=
  fun h => if h = host then none else m h

/-- `KnownHosts::try_insert` (altsvc.rs lines 117-132): insert
`(insert_time = now, max_age = srv.max_age or 86400)` exactly when the
service advertises `h3` on port 443 for an empty or matching host; `now` is
the `Instant::now()` read inside the call. -/
def KnownHosts.try_insert (m : KnownHosts) (now : Nat) (host : String) (srv : Service) :
    Bool × KnownHosts :=
  if srv.id = "h3" ∧ (srv.authority.host = "" ∨ srv.authority.host = host) ∧
      srv.authority.port = 443 then
    (true, m.insert host { insert_time := now, max_age := srv.max_age.getD 86400 })
  else
    (false, m)

/-- `KnownHosts::find` (altsvc.rs lines 134-143): `remove_entry`, then
re-insert the unchanged entry and answer true when
`(now - insert_time).as_secs() <= max_age`; an expired entry stays removed. -/
def KnownHosts.find (m : KnownHosts) (now : Nat) (host : String) : Bool × KnownHosts :=
  match m host with
  | some entry =>
    if now - entry.insert_time ≤ entry.max_age then
      (true, (m.remove host).insert host entry)
    else
      (false, m.remove host)
  | none => (false, m)

/-- `KnownHosts::clear` (altsvc.rs lines 145-147): unconditional removal. -/
def KnownHosts.clear (m : KnownHosts) (host : String) : KnownHosts :=
  m.remove host

/-! ## `src/cyper/src/http3.rs`

The pool state lives behind one mutex; each lock-holding section of the
source becomes one atomic transition on `PoolInner`. A `SendRequest` handle
is abstracted to a `Nat` identifier (`Clone` returns the same identifier);
the liveness channel of a pooled connection is abstracted to the outcome its
`try_recv` would report right now. -/

/-- What `close_rx.try_recv()` would return: a queued `ConnectionError`
(`Ok(_)`), nothing yet (`Err(Empty)`), or a dropped sender
(`Err(Disconnected)`). -/
inductive RecvState where
  | value
  | empty
  | disconnected
  deriving DecidableEq, Repr

/-- `struct PoolConnection { close_rx, client, idle_timeout }`; the client
handle is its `Nat` identifier, the instant is at second granularity. -/
structure PoolConnection where
  close_rx : RecvState
  client : Nat
  idle_timeout : Nat
  deriving DecidableEq, Repr

/-- `PoolConnection::is_invalid` (http3.rs lines 233-239): `Err(Empty)` is
the only healthy outcome; a received error or a disconnected channel means
the connection is dead. -/
def PoolConnection.is_invalid (c : PoolConnection) : Bool :=
  match c.close_rx with
  | .empty => false
  | .disconnected => true
  | .value => true

/-- `PoolConnection::pool` (http3.rs lines 228-231): refresh `idle_timeout`
to now and hand out a clone of the client handle. -/
def PoolConnection.pool (c : PoolConnection) (now : Nat) : Nat × PoolConnection :=
  (c.client, { c with idle_timeout := now })

/-- `type Key = (Scheme, Authority)`, both components as strings. -/
abbrev Key := String × String

/-- The `Error` values these paths produce: `Error::H3Client` for a
duplicate connection attempt, and the error propagated from
`Connector::connect`. -/
inductive H3Error where
  | connectingInProgress (key : Key)
  | connectFailed
  deriving DecidableEq, Repr

/-- `struct PoolInner { connecting: HashSet<Key>, idle_conns: HashMap<Key,
PoolConnection> }`, the set and map extensional. -/
structure PoolInner where
  connecting : Key → Bool
  idle_conns : Key → Option PoolConnection

/-- The empty pool `Pool::new` starts from. -/
def PoolInner.new : PoolInner :=
  { connecting := fun _ => false, idle_conns := fun _ => none }

/-- `Pool::connecting` (http3.rs lines 271-279): `HashSet::insert` reports a
duplicate, which becomes the "already in progress" error; otherwise the key
is now in the set. -/
def Pool.connecting (p : PoolInner) (key : Key) : RustResult H3Error PoolInner :=
  if p.connecting key then .err (.connectingInProgress key)
  else .ok { p with connecting := fun k => if k = key then true else p.connecting k }

/-- `Pool::try_pool` (http3.rs lines 281-293): an existing entry whose
liveness check fails is evicted and nothing is returned; a healthy entry is
refreshed via `PoolConnection::pool`; a missing key returns nothing. -/
def Pool.try_pool (p : PoolInner) (now : Nat) (key : Key) : Option Nat × PoolInner :=
  match p.idle_conns key with
  | some conn =>
    if conn.is_invalid then
      (none, { p with idle_conns := fun k => if k = key then none else p.idle_conns k })
    else
      let (client, conn2) := conn.pool now
      (some client,
        { p with idle_conns := fun k => if k = key then some conn2 else p.idle_conns k })
  | none => (none, p)

/-- `Pool::new_connection` (http3.rs lines 295-319) under its single lock
acquisition: insert a fresh `PoolConnection` (its liveness channel newly
created, hence empty) and remove the key from `connecting`. The spawned
driver-watching task only ever feeds the channel later, which our per-call
`RecvState` already ranges over. -/
def Pool.new_connection (p : PoolInner) (now : Nat) (key : Key) (client : Nat) :
    Nat × PoolInner :=
  let conn : PoolConnection := { close_rx := .empty, client := client, idle_timeout := now }
  (client,
    { connecting := fun k => if k = key then false else p.connecting k,
      idle_conns := fun k => if k = key then some conn else p.idle_conns k })

/-- `Client::get_pooled_client` (http3.rs lines 336-345): try the pool; on a
miss mark the key connecting, run the connector (its outcome is the
environment-supplied `connectResult`; on success the eventual client handle),
and on success publish the connection. A failing `connect` propagates through
`?` with no further pool access. -/
def Client.get_pooled_client (p : PoolInner) (now : Nat) (key : Key)
    (connectResult : RustResult Unit Nat) : RustResult H3Error Nat × PoolInner :=
  match Pool.try_pool p now key with
  | (some client, p1) => (.ok client, p1)
  | (none, p1) =>
    match Pool.connecting p1 key with
    | .err e => (.err e, p1)
    | .ok p2 =>
      match connectResult with
      | .err _ => (.err .connectFailed, p2)
      | .ok client =>
        let (c, p3) := Pool.new_connection p2 now key client
        (.ok c, p3)

/-! ## `src/cyper-core/src/stream.rs`

`HyperStream` keeps one optional pending-future slot per direction; the
model tracks each slot's occupancy. What a stored (or freshly created)
future does when polled, and what the synchronous I/O attempt returns, are
environment inputs to each call, matching the `poll_future` /
`poll_future_would_block` macros. I/O errors are collapsed to `Unit`
payloads: the adapter never inspects them. -/

/-- `std::task::Poll`. -/
inductive Poll (α : Type) where
  | Pending
  | Ready (a : α)
  deriving DecidableEq, Repr

/-- Outcome of a synchronous `io::Read` / `io::Write` attempt as the
`poll_future_would_block` macro distinguishes them. -/
inductive IoOutcome (α : Type) where
  | ok (a : α)
  | wouldBlock
  | err
  deriving DecidableEq, Repr

/-- The slot state of `HyperStream`: `is_some()` of `read_future`,
`write_future` and `shutdown_future`. -/
structure HyperStreamState where
  read_future : Bool
  write_future : Bool
  shutdown_future : Bool
  deriving DecidableEq, Repr

/-- `HyperStream::new`: every slot empty. -/
def HyperStreamState.new : HyperStreamState :=
  { read_future := false, write_future := false, shutdown_future := false }

/-- `poll_read` (stream.rs lines 277-296), via `poll_future_would_block` on
`read_future`: a stored future still pending is put back; otherwise the
synchronous read runs — `WouldBlock` parks a new future in the slot, any
other outcome resolves with the slot empty. `futPending` is whether polling
the stored future reports pending; `io` the synchronous attempt's outcome. -/
def HyperStream.poll_read (s : HyperStreamState) (futPending : Bool)
    (io : IoOutcome Unit) : Poll (RustResult Unit Unit) × HyperStreamState :=
  if s.read_future && futPending then (.Pending, s)
  else
    match io with
    | .ok _ => (.Ready (.ok ()), { s with read_future := false })
    | .wouldBlock => (.Pending, { s with read_future := true })
    | .err => (.Ready (.err ()), { s with read_future := false })

/-- `poll_write` (stream.rs lines 300-320): a pending shutdown makes the call
return `Pending` at once, storing nothing; otherwise
`poll_future_would_block` runs on `write_future` as in `poll_read`. -/
def HyperStream.poll_write (s : HyperStreamState) (futPending : Bool)
    (io : IoOutcome Nat) : Poll (RustResult Unit Nat) × HyperStreamState :=
  if s.shutdown_future then (.Pending, s)
  else if s.write_future && futPending then (.Pending, s)
  else
    match io with
    | .ok n => (.Ready (.ok n), { s with write_future := false })
    | .wouldBlock => (.Pending, { s with write_future := true })
    | .err => (.Ready (.err ()), { s with write_future := false })

/-- `poll_flush` (stream.rs lines 322-334): guarded by a pending shutdown;
otherwise `poll_future` on `write_future` takes the stored future or creates
a flush future, stores it back when pending, and resolves otherwise. -/
def HyperStream.poll_flush (s : HyperStreamState) (futPending : Bool)
    (res : RustResult Unit Nat) : Poll (RustResult Unit Unit) × HyperStreamState :=
  if s.shutdown_future then (.Pending, s)
  else if futPending then (.Pending, { s with write_future := true })
  else
    match res with
    | .ok _ => (.Ready (.ok ()), { s with write_future := false })
    | .err e => (.Ready (.err e), { s with write_future := false })

/-- `poll_shutdown` (stream.rs lines 336-350): guarded by a pending write;
otherwise `poll_future` on `shutdown_future`. -/
def HyperStream.poll_shutdown (s : HyperStreamState) (futPending : Bool)
    (res : RustResult Unit Unit) : Poll (RustResult Unit Unit) × HyperStreamState :=
  if s.write_future then (.Pending, s)
  else if futPending then (.Pending, { s with shutdown_future := true })
  else (.Ready res, { s with shutdown_future := false })

/-- `KnownHosts::default()`: the empty cache. -/
def KnownHosts.new : KnownHosts := fun _ => none

/-- The §4.1 invariant of the spec: a pending write and a pending shutdown
never coexist. -/
def writeShutdownExclusive (s : HyperStreamState) : Prop :=
  s.write_future = false ∨ s.shutdown_future = false

/-! ## Helper lemmas -/

/-- Unfolding lemma for `find` on a present host. -/
theorem KnownHosts.find_some (m : KnownHosts) (now : Nat) (host : String)
    (entry : AltHostEntry) (hm : m host = some entry) :
    KnownHosts.find m now host =
      if now - entry.insert_time ≤ entry.max_age then
        (true, (m.remove host).insert host entry)
      else (false, m.remove host) := by
  unfold KnownHosts.find
  rw [hm]

/-- Unfolding lemma for `find` on an absent host. -/
theorem KnownHosts.find_none (m : KnownHosts) (now : Nat) (host : String)
    (hm : m host = none) : KnownHosts.find m now host = (false, m) := by
  unfold KnownHosts.find
  rw [hm]

/-- Unfolding lemma for `try_pool` on a pooled key. -/
theorem Pool.try_pool_some (p : PoolInner) (now : Nat) (key : Key) (conn : PoolConnection)
    (hm : p.idle_conns key = some conn) :
    Pool.try_pool p now key =
      if conn.is_invalid then
        (none, { p with idle_conns := fun k => if k = key then none else p.idle_conns k })
      else
        (some conn.client,
          { p with idle_conns :=
              fun k => if k = key then some { conn with idle_timeout := now } else p.idle_conns k }) := by
  unfold Pool.try_pool
  rw [hm]
  rfl

/-- Unfolding lemma for `try_pool` on an unknown key. -/
theorem Pool.try_pool_none (p : PoolInner) (now : Nat) (key : Key)
    (hm : p.idle_conns key = none) : Pool.try_pool p now key = (none, p) := by
  unfold Pool.try_pool
  rw [hm]

/-! ## Claims -/

/-- C5: on the input `h3=":443"; ma=3600`, `parse` returns the services
directive with exactly one service, protocol id `h3`, authority port 443,
max-age 3600, persist false. -/
theorem c5_parse_h3_example :
    parse ("h3=\":443\"; ma=3600") =
      .ok (.Services [{ id := "h3", authority := { host := "", port := 443 }, max_age := some 3600, persist := false }]) := by
  decide

/-- C3 counterexample: the claim says `parse` yields the clear directive for
the literal `clear` surrounded by whitespace, but `parse " clear "` is a
`Parameter` parse error — the `clear` comparison is exact, without trimming. -/
theorem c3_counterexample_padded_clear :
    parse (" clear ") = .err (.Parameter ("clear")) ∧
    ¬ parse (" clear ") = .ok .Clear := by
  decide

/-- C3 (amended): `parse` returns the clear directive exactly for the exact
literal `clear` (no surrounding whitespace: with whitespace the text falls
through to service parsing and is rejected as a malformed parameter); and
`clear(host)` on a cache with no entry for `host` leaves the cache
unchanged. -/
theorem c3_clear_exact_literal_and_noop :
    (∀ s : String, parse s = .ok .Clear ↔ s = "clear") ∧
    parse (" clear ") = .err (.Parameter ("clear")) ∧
    (∀ (m : KnownHosts) (host : String), m host = none → KnownHosts.clear m host = m) := by
  refine ⟨fun s => ?_, by decide, fun m host hm => ?_⟩
  · constructor
    · intro h
      by_contra hne
      rw [parse, if_neg hne] at h
      cases hf : parseFragments (splitOnChar ',' s.toList) <;> rw [hf] at h <;> simp at h
    · intro h
      subst h
      rfl
  · funext x
    by_cases hx : x = host
    · subst hx
      simp [KnownHosts.clear, KnownHosts.remove, hm]
    · simp [KnownHosts.clear, KnownHosts.remove, hx]

/-- C4: `try_insert` succeeds, storing `(insertion_time = now, max_age =
srv.max_age or 86400)`, exactly when the service advertises protocol id `h3`
on port 443 with an empty or matching host; otherwise it returns false and
leaves the cache unchanged. -/
theorem c4_try_insert_filter (m : KnownHosts) (now : Nat) (host : String) (srv : Service) :
    ((KnownHosts.try_insert m now host srv).1 = true ↔
      srv.id = "h3" ∧ (srv.authority.host = "" ∨ srv.authority.host = host) ∧
        srv.authority.port = 443) ∧
    ((KnownHosts.try_insert m now host srv).1 = true →
      (KnownHosts.try_insert m now host srv).2 =
        m.insert host { insert_time := now, max_age := srv.max_age.getD 86400 }) ∧
    ((KnownHosts.try_insert m now host srv).1 = false →
      (KnownHosts.try_insert m now host srv).2 = m) := by
  unfold KnownHosts.try_insert
  by_cases hc : srv.id = "h3" ∧ (srv.authority.host = "" ∨ srv.authority.host = host) ∧
      srv.authority.port = 443
  · simp [hc]
  · simp [hc]

/-- C9: the parser is lenient about empty fragments — an empty service
string between commas and an empty parameter between semicolons are skipped;
`parse ""` is the empty services directive; a service entry with only
`ma`/`persist` parameters parses into a service with empty protocol id,
empty host and port 0, which `try_insert` then rejects. -/
theorem c9_parse_leniency :
    (∀ (frag : List Char) (rest : List (List Char)), (trimChars frag).isEmpty = true →
      parseFragments (frag :: rest) = parseFragments rest) ∧
    (∀ (svc : Service) (kv : List Char) (rest : List (List Char)),
      (trimChars kv).isEmpty = true → parseParams svc (kv :: rest) = parseParams svc rest) ∧
    parse ("") = .ok (.Services []) ∧
    parse ("ma=5; persist=1") = .ok (.Services
      [{ id := "", authority := { host := "", port := 0 }, max_age := some 5, persist := true }]) ∧
    (∀ (m : KnownHosts) (now : Nat) (host : String),
      KnownHosts.try_insert m now host
        { id := "", authority := { host := "", port := 0 }, max_age := some 5, persist := true }
        = (false, m)) := by
  refine ⟨fun frag rest h => ?_, fun svc kv rest h => ?_, by decide, by decide,
    fun m now host => ?_⟩
  · rw [parseFragments, if_pos h]
  · rw [parseParams, parseParam]
    simp only [h, if_pos]
  · rw [KnownHosts.try_insert, if_neg]
    rintro ⟨hid, -, -⟩
    exact absurd hid (by decide)

/-- C10: a successful `find` re-inserts the removed entry unchanged, so the
cache after a hit is exactly the cache before it (no deadline extension);
a successful `try_insert` overwrites the host's entry with
`insertion_time = now` and the service's max-age (or the 86400 default). -/
theorem c10_find_frame (m : KnownHosts) (now : Nat) (host : String) :
    ((KnownHosts.find m now host).1 = true → (KnownHosts.find m now host).2 = m) ∧
    (∀ srv : Service, (KnownHosts.try_insert m now host srv).1 = true →
      (KnownHosts.try_insert m now host srv).2 host =
        some { insert_time := now, max_age := srv.max_age.getD 86400 }) := by
  constructor
  · intro h
    cases hm : m host with
    | none => rw [KnownHosts.find_none m now host hm] at h; simp at h
    | some entry =>
      rw [KnownHosts.find_some m now host entry hm] at h ⊢
      by_cases helig : now - entry.insert_time ≤ entry.max_age
      · rw [if_pos helig]
        funext x
        by_cases hx : x = host
        · subst hx
          simp [KnownHosts.insert, KnownHosts.remove, hm]
        · simp [KnownHosts.insert, KnownHosts.remove, hx]
      · rw [if_neg helig] at h
        simp at h
  · intro srv h
    unfold KnownHosts.try_insert at h ⊢
    by_cases hc : srv.id = "h3" ∧ (srv.authority.host = "" ∨ srv.authority.host = host) ∧
        srv.authority.port = 443
    · rw [if_pos hc]
      simp [KnownHosts.insert]
    · rw [if_neg hc] at h
      simp at h

/-- C2 counterexample: the claim says a successful `try_insert` with `ma=0`
makes `find(host)` return false, but a lookup at elapsed time 0 (the same
second as the insertion) satisfies `elapsed <= max_age` and returns true. -/
theorem c2_counterexample_ma0_lookup_same_second :
    (KnownHosts.try_insert KnownHosts.new 10 ("example.com")
      { id := "h3", authority := { host := "", port := 443 }, max_age := some 0, persist := false }).1 = true ∧
    (KnownHosts.find
      (KnownHosts.try_insert KnownHosts.new 10 ("example.com")
        { id := "h3", authority := { host := "", port := 443 }, max_age := some 0, persist := false }).2
      10 ("example.com")).1 = true := by
  decide

/-- C2 (amended): after a successful `try_insert`, `find` at elapsed time
`d` succeeds exactly when `d <= max_age` (with `max_age = srv.ma` or 86400).
So with `ma=0` the entry is still found at elapsed time 0 — it is only
lookups at elapsed time `max_age + 1` or later, here 1 second on, that are
rejected; the boundary `elapsed == max_age` is accepted. -/
theorem c2_ttl_boundary (m : KnownHosts) (t d : Nat) (host : String) (srv : Service)
    (h : (KnownHosts.try_insert m t host srv).1 = true) :
    (KnownHosts.find (KnownHosts.try_insert m t host srv).2 (t + d) host).1 = true ↔
      d ≤ srv.max_age.getD 86400 := by
  unfold KnownHosts.try_insert at h ⊢
  by_cases hc : srv.id = "h3" ∧ (srv.authority.host = "" ∨ srv.authority.host = host) ∧
      srv.authority.port = 443
  · rw [if_pos hc]
    have hm : (m.insert host { insert_time := t, max_age := srv.max_age.getD 86400 }) host =
        some { insert_time := t, max_age := srv.max_age.getD 86400 } := by
      simp [KnownHosts.insert]
    rw [KnownHosts.find_some _ _ _ _ hm]
    by_cases helig : t + d - t ≤ srv.max_age.getD 86400
    · rw [if_pos helig]
      simpa using helig
    · rw [if_neg helig]
      constructor
      · intro hfalse
        simp at hfalse
      · intro hd
        exact absurd (by omega) helig
  · rw [if_neg hc] at h
    simp at h

/-- C2 witness: the amended boundary at a concrete input — insertion at
second 10 with `ma = 3600`, lookup at elapsed time 3600 exactly. -/
theorem c2_ttl_boundary_witness :
    (KnownHosts.try_insert KnownHosts.new 10 ("example.com")
      { id := "h3", authority := { host := "", port := 443 }, max_age := some 3600, persist := false }).1 = true ∧
    ((KnownHosts.find
        (KnownHosts.try_insert KnownHosts.new 10 ("example.com")
          { id := "h3", authority := { host := "", port := 443 }, max_age := some 3600, persist := false }).2
        (10 + 3600) ("example.com")).1 = true ↔
      3600 ≤ (Option.getD (Service.max_age
        { id := "h3", authority := { host := "", port := 443 }, max_age := some 3600, persist := false }) 86400)) :=
  ⟨by decide,
    c2_ttl_boundary KnownHosts.new 10 3600 ("example.com")
      { id := "h3", authority := { host := "", port := 443 }, max_age := some 3600, persist := false }
      (by decide)⟩

/-- C1: the claim (and spec) says a failed `connector.connect` still removes
the key from `Connecting` before the error returns; the code's
`get_pooled_client` propagates the failure with `?` without any cleanup, so
starting from an empty pool a failed attempt leaves the key marked
connecting and the next attempt for the same key fails with the
duplicate-connecting error instead of retrying cleanly. -/
theorem c1_connect_failure_leaves_key_connecting :
    (Client.get_pooled_client PoolInner.new 0 (("https", "example.com") : Key) (.err ())).1
      = .err .connectFailed ∧
    (Client.get_pooled_client PoolInner.new 0 (("https", "example.com") : Key) (.err ())).2.connecting
      (("https", "example.com") : Key) = true ∧
    (Client.get_pooled_client
        (Client.get_pooled_client PoolInner.new 0 (("https", "example.com") : Key) (.err ())).2
        0 (("https", "example.com") : Key) (.ok 1)).1
      = .err (.connectingInProgress (("https", "example.com") : Key)) := by
  decide

/-- C6: `Pool::connecting` fails exactly when the key is already in the
`Connecting` set; on success the key is in the set afterwards, so of two
consecutive calls for the same key with no intervening completion, the
first succeeds and the second fails with the duplicate-attempt error. -/
theorem c6_connecting_dedup (p : PoolInner) (key : Key) :
    ((∃ e, Pool.connecting p key = .err e) ↔ p.connecting key = true) ∧
    (∀ p2, Pool.connecting p key = .ok p2 →
      p2.connecting key = true ∧
      Pool.connecting p2 key = .err (.connectingInProgress key)) := by
  cases hb : p.connecting key with
  | false =>
    constructor
    · simp [Pool.connecting, hb]
    · intro p2 h
      rw [Pool.connecting, hb] at h
      simp only [Bool.false_eq_true, if_false] at h
      cases h
      constructor
      · simp
      · rw [Pool.connecting]
        simp
  | true =>
    constructor
    · simp [Pool.connecting, hb]
    · intro p2 h
      rw [Pool.connecting, hb] at h
      simp at h

/-- C7: `try_pool` on a pooled key whose liveness channel carries a terminal
signal (an error value, or a disconnected channel) evicts the entry and
returns nothing; on a channel with no signal it returns the cloned client
handle and refreshes the entry's last-used time to now; on an unknown key
it returns nothing and changes nothing. -/
theorem c7_try_pool_eviction (p : PoolInner) (now : Nat) (key : Key) :
    (p.idle_conns key = none → Pool.try_pool p now key = (none, p)) ∧
    (∀ conn, p.idle_conns key = some conn →
      ((conn.close_rx = RecvState.value ∨ conn.close_rx = RecvState.disconnected) →
        (Pool.try_pool p now key).1 = none ∧
        (Pool.try_pool p now key).2.idle_conns key = none) ∧
      (conn.close_rx = RecvState.empty →
        (Pool.try_pool p now key).1 = some conn.client ∧
        (Pool.try_pool p now key).2.idle_conns key = some { conn with idle_timeout := now })) := by
  refine ⟨fun hm => ?_, fun conn hm => ⟨fun hterm => ?_, fun hemp => ?_⟩⟩
  · exact Pool.try_pool_none p now key hm
  · have hinv : conn.is_invalid = true := by
      rcases hterm with h | h <;> simp [PoolConnection.is_invalid, h]
    rw [Pool.try_pool_some p now key conn hm, if_pos hinv]
    simp
  · have hinv : conn.is_invalid = false := by
      simp [PoolConnection.is_invalid, hemp]
    rw [Pool.try_pool_some p now key conn hm, if_neg]
    · simp
    · simp [hinv]

/-- C8: a pending write and a pending shutdown never coexist in the stream
adapter — `poll_shutdown` during a pending write, and `poll_write` during a
pending shutdown, return pending without storing an operation, and all four
poll operations preserve the exclusion invariant. -/
theorem c8_adapter_mutual_exclusion (s : HyperStreamState) (fp : Bool)
    (ioR : IoOutcome Unit) (ioW : IoOutcome Nat)
    (resF : RustResult Unit Nat) (resS : RustResult Unit Unit) :
    (s.write_future = true → HyperStream.poll_shutdown s fp resS = (.Pending, s)) ∧
    (s.shutdown_future = true → HyperStream.poll_write s fp ioW = (.Pending, s)) ∧
    (writeShutdownExclusive s →
      writeShutdownExclusive (HyperStream.poll_read s fp ioR).2 ∧
      writeShutdownExclusive (HyperStream.poll_write s fp ioW).2 ∧
      writeShutdownExclusive (HyperStream.poll_flush s fp resF).2 ∧
      writeShutdownExclusive (HyperStream.poll_shutdown s fp resS).2) := by
  obtain ⟨r, w, sh⟩ := s
  refine ⟨fun hw => ?_, fun hs => ?_, fun hinv => ⟨?_, ?_, ?_, ?_⟩⟩
  · cases hw
    simp [HyperStream.poll_shutdown]
  · cases hs
    simp [HyperStream.poll_write]
  · cases r <;> cases w <;> cases sh <;> cases fp <;> cases ioR <;>
      simp_all [HyperStream.poll_read, writeShutdownExclusive]
  · cases w <;> cases sh <;> cases fp <;> cases ioW <;>
      simp_all [HyperStream.poll_write, writeShutdownExclusive]
  · cases w <;> cases sh <;> cases fp <;> cases resF <;>
      simp_all [HyperStream.poll_flush, writeShutdownExclusive]
  · cases w <;> cases sh <;> cases fp <;> cases resS <;>
      simp_all [HyperStream.poll_shutdown, writeShutdownExclusive]

end Cyper
